import Mathlib

/-!
Verification of the citinet-client hub core: a shallow embedding of the
storage/messaging layer (storage_manager.rs), the HTTP handler layer
(hub_api.rs) and the tunnel supervision protocol (lib.rs), with theorems
settling the specification claims about them.

Conventions of the embedding:
* SQLite tables become Lean lists of records, scanned in insertion order
  (INSERT appends at the end, queries scan front to back, so query_row
  corresponds to List.find?).
* UUID generation and clock reads become explicit parameters (newId, now).
* Fallible operations return Except; mutating operations return the store
  together with the Except result, because the Rust code runs without
  transactions, so mutations made before a failing statement persist.
* Machine integers that matter (the u32 token counter) are Nat with an
  explicit wrap modulo 2^32 where Rust release-mode addition would wrap.
-/

namespace Citinet

/-- Extension extraction shared by both Rust mime_from_ext functions:
name.rsplit of the dot character .next() takes the substring after the last
dot (the whole name when no dot occurs), then lowercases it (the extensions
compared against are ASCII, so ASCII lowercasing is the relevant behaviour).
Implemented as a structural fold so the kernel can evaluate it: the
accumulator restarts at every dot, leaving the segment after the last dot. -/
def extOf (name : String) : String :=
  String.mk ((name.data.foldl (fun acc c => if c = '.' then [] else acc ++ [c]) []).map Char.toLower)

namespace storage_manager

/-- Embeds fn mime_from_ext of storage_manager.rs (lines 1307-1329): the
Rust match on the lowercased last extension, written as the equivalent
if-else chain. -/
def mime_from_ext (name : String) : String :=
  let e := extOf name
  if e = "jpg" then "image/jpeg"
  else if e = "jpeg" then "image/jpeg"
  else if e = "png" then "image/png"
  else if e = "gif" then "image/gif"
  else if e = "webp" then "image/webp"
  else if e = "svg" then "image/svg+xml"
  else if e = "bmp" then "image/bmp"
  else if e = "ico" then "image/x-icon"
  else if e = "mp4" then "video/mp4"
  else if e = "m4v" then "video/mp4"
  else if e = "webm" then "video/webm"
  else if e = "mov" then "video/quicktime"
  else if e = "avi" then "video/x-msvideo"
  else if e = "mkv" then "video/x-matroska"
  else if e = "ogv" then "video/ogg"
  else if e = "3gp" then "video/3gpp"
  else if e = "pdf" then "application/pdf"
  else if e = "txt" then "text/plain"
  else if e = "json" then "application/json"
  else if e = "zip" then "application/zip"
  else "application/octet-stream"

end storage_manager

namespace hub_api

/-- Embeds fn mime_from_ext of hub_api.rs (lines 400-422): same shape as the
storage-layer copy, but with html/htm cases and without the ico case. -/
def mime_from_ext (name : String) : String :=
  let e := extOf name
  if e = "jpg" then "image/jpeg"
  else if e = "jpeg" then "image/jpeg"
  else if e = "png" then "image/png"
  else if e = "gif" then "image/gif"
  else if e = "webp" then "image/webp"
  else if e = "svg" then "image/svg+xml"
  else if e = "bmp" then "image/bmp"
  else if e = "mp4" then "video/mp4"
  else if e = "m4v" then "video/mp4"
  else if e = "webm" then "video/webm"
  else if e = "mov" then "video/quicktime"
  else if e = "avi" then "video/x-msvideo"
  else if e = "mkv" then "video/x-matroska"
  else if e = "ogv" then "video/ogg"
  else if e = "3gp" then "video/3gpp"
  else if e = "pdf" then "application/pdf"
  else if e = "txt" then "text/plain"
  else if e = "html" then "text/html"
  else if e = "htm" then "text/html"
  else if e = "json" then "application/json"
  else if e = "zip" then "application/zip"
  else "application/octet-stream"

end hub_api

/-! ## String comparison

SQLite compares TEXT values byte-wise (memcmp), which on valid UTF-8 agrees
with codepoint-lexicographic order. The embedding uses a structural
lexicographic comparison on the character list so the kernel can evaluate
it (the core String order is defined through iterators and does not
reduce). -/

/-- Lexicographic strict order on character lists by codepoint. -/
def charListLt : List Char → List Char → Bool
  | [], [] => false
  | [], _ :: _ => true
  | _ :: _, [] => false
  | a :: as, b :: bs =>
    if a.toNat < b.toNat then true
    else if b.toNat < a.toNat then false
    else charListLt as bs

/-- Strict lexicographic order on strings, the embedding of the SQL TEXT
comparison used by created_at cursors and ORDER BY. -/
def strLt (a b : String) : Bool := charListLt a.data b.data

/-- Non-strict companion of strLt. -/
def strLe (a b : String) : Bool := !(strLt b a)

instance {ε α : Type} [DecidableEq ε] [DecidableEq α] : DecidableEq (Except ε α) :=
  fun x y =>
    match x, y with
    | .error e₁, .error e₂ =>
      if h : e₁ = e₂ then isTrue (by rw [h]) else
        isFalse (fun hc => by cases hc; exact h rfl)
    | .error _, .ok _ => isFalse (fun hc => by cases hc)
    | .ok _, .error _ => isFalse (fun hc => by cases hc)
    | .ok a₁, .ok a₂ =>
      if h : a₁ = a₂ then isTrue (by rw [h]) else
        isFalse (fun hc => by cases hc; exact h rfl)

/-- Descending sort relation by a string key, the embedding of SQL
ORDER BY key DESC (matching the SQLite TEXT comparison). -/
def descBy (key : α → String) : α → α → Prop :=
  fun a b => strLe (key b) (key a) = true

instance (key : α → String) : DecidableRel (descBy key) :=
  fun a b => (inferInstance : Decidable (strLe (key b) (key a) = true))

/-- Strict descent of a string key along a list: every adjacent pair
strictly decreases. This is the checkable form of the claim's strictly
descending timestamp order. -/
def strictlyDescendingBy (key : α → String) : List α → Bool
  | [] => true
  | a :: rest =>
    match rest with
    | [] => true
    | b :: _ => strLt (key b) (key a) && strictlyDescendingBy key rest

/-- Strict descending order between two elements by a string key. -/
def strictDescBy (key : α → String) : α → α → Prop :=
  fun x y => strLt (key y) (key x) = true

namespace storage_manager

/-! ## Data model

Rows of the SQLite tables created by run_migrations (storage_manager.rs
lines 128-233). The users row carries password_hash (a table column); the
Rust User struct returned by queries omits it, which is immaterial here
because no claim compares whole user records across that boundary. -/

structure User where
  user_id : String
  username : String
  email : String
  password_hash : String
  is_admin : Bool
  created_at : String
  updated_at : String
deriving DecidableEq

structure File where
  file_id : String
  user_id : String
  file_name : String
  size_bytes : Nat
  is_public : Bool
  created_at : String
deriving DecidableEq

structure Conversation where
  conversation_id : String
  kind : String
  name : Option String
  created_by : String
  created_at : String
  updated_at : String
deriving DecidableEq

structure ConversationMemberRow where
  conversation_id : String
  user_id : String
  joined_at : String
deriving DecidableEq

structure MessageRow where
  message_id : String
  conversation_id : String
  sender_id : String
  body : String
  created_at : String
deriving DecidableEq

structure AttachmentRow where
  message_id : String
  file_id : String
deriving DecidableEq

structure MessageAttachment where
  file_id : String
  file_name : String
  size_bytes : Nat
  mime_type : String
deriving DecidableEq

structure Message where
  message_id : String
  conversation_id : String
  sender_id : String
  sender_username : String
  body : String
  attachments : List MessageAttachment
  created_at : String
deriving DecidableEq

/-- The relational store plus the blob directory: lists play the SQLite
tables (INSERT appends, scans run front to back), disk is the storage
directory as an association list from file name to contents. -/
structure Store where
  users : List User := []
  files : List File := []
  conversations : List Conversation := []
  conversation_members : List ConversationMemberRow := []
  messages : List MessageRow := []
  message_attachments : List AttachmentRow := []
  disk : List (String × String) := []
deriving DecidableEq

/-- Embeds fn validate_filename (storage_manager.rs lines 1331-1336):
rejects the empty name, any occurrence of two consecutive dots, and path
separator characters. hasDotDot is the structural form of
name.contains of two dots. -/
def hasDotDot : List Char → Bool
  | [] => false
  | c1 :: rest =>
    match rest with
    | [] => false
    | c2 :: _ => (c1 = '.' && c2 = '.') || hasDotDot rest

def validate_filename (name : String) : Bool :=
  !(name == "" || hasDotDot name.data || name.data.any (· = '/') || name.data.any (· = '\\'))

/-- fs::write — creates or overwrites the blob for a file name. -/
def diskWrite (disk : List (String × String)) (k v : String) : List (String × String) :=
  if disk.any (fun p => p.1 == k) then
    disk.map (fun p => if p.1 == k then (k, v) else p)
  else disk ++ [(k, v)]

/-- fs::read — looks the blob up by file name. -/
def diskRead (disk : List (String × String)) (k : String) : Option String :=
  (disk.find? (fun p => p.1 == k)).map Prod.snd

/-- Embeds StorageManager::upload_file (lines 516-546): validate the name,
write bytes to disk, then insert the metadata row. The files table has no
UNIQUE constraint on file_name, so the insert only fails on a file_id
primary-key collision; a failed insert still leaves the disk written, the
accepted inconsistency window. Byte length is modelled as the character
count of the contents, which no claim depends on. -/
def upload_file (s : Store) (user_id file_name file_data : String) (is_public : Bool)
    (newId now : String) : Store × Except String File :=
  if !validate_filename file_name then (s, .error "Invalid filename")
  else
    let s₁ : Store := { s with disk := diskWrite s.disk file_name file_data }
    if s₁.files.any (fun f => f.file_id == newId) then
      (s₁, .error "Failed to insert file metadata")
    else
      let f : File :=
        { file_id := newId, user_id := user_id, file_name := file_name,
          size_bytes := file_data.length, is_public := is_public, created_at := now }
      ({ s₁ with files := s₁.files ++ [f] }, .ok f)

/-- Embeds StorageManager::can_access_attached_file (lines 1244-1254): the
EXISTS join files → message_attachments → messages → conversation_members
restricted to the file name and the requesting user. -/
def can_access_attached_file (s : Store) (user_id file_name : String) : Bool :=
  s.files.any (fun f => f.file_name == file_name &&
    s.message_attachments.any (fun ma => ma.file_id == f.file_id &&
      s.messages.any (fun m => m.message_id == ma.message_id &&
        s.conversation_members.any (fun cm => cm.conversation_id == m.conversation_id &&
          cm.user_id == user_id))))

/-- Embeds StorageManager::read_file (lines 632-654): validate the name,
find the metadata row by name, check owner / public / attached-conversation
permission, then read the blob. -/
def read_file (s : Store) (requesting_user_id file_name : String) : Except String String :=
  if !validate_filename file_name then .error "Invalid filename"
  else
    match s.files.find? (fun f => f.file_name == file_name) with
    | none => .error "File not found"
    | some f =>
      if !(f.user_id == requesting_user_id) && !f.is_public
          && !can_access_attached_file s requesting_user_id file_name then
        .error "Permission denied: file is private"
      else
        match diskRead s.disk file_name with
        | some c => .ok c
        | none => .error "Failed to read file"

/-- Embeds StorageManager::is_conversation_member (lines 1060-1065). -/
def is_conversation_member (s : Store) (conversation_id user_id : String) : Bool :=
  s.conversation_members.any (fun cm =>
    cm.conversation_id == conversation_id && cm.user_id == user_id)

/-- Embeds StorageManager::get_user_by_id (lines 756-778). -/
def get_user_by_id (s : Store) (user_id : String) : Option User :=
  s.users.find? (fun u => u.user_id == user_id)

/-- Embeds StorageManager::get_user_by_username (lines 732-754). -/
def get_user_by_username (s : Store) (username : String) : Option User :=
  s.users.find? (fun u => u.username == username)

/-- Embeds StorageManager::get_password_hash (lines 780-794): a second
query on the same table and key, hence the projection of the same row. -/
def get_password_hash (s : Store) (username : String) : Option String :=
  (s.users.find? (fun u => u.username == username)).map (·.password_hash)

/-- Embeds StorageManager::list_users (lines 796-815): all user rows,
ORDER BY created_at DESC. -/
def list_users (s : Store) : List User :=
  List.insertionSort (descBy User.created_at) s.users

/-- Embeds StorageManager::create_user (lines 687-730): upsert — an
existing username row is updated in place (subject to the UNIQUE email
constraint against other rows), otherwise a fresh row is inserted (subject
to the user_id primary key and the UNIQUE email constraint). -/
def create_user (s : Store) (username email password_hash : String) (is_admin : Bool)
    (newId now : String) : Store × Except String User :=
  match get_user_by_username s username with
  | some existing =>
    if s.users.any (fun u => !(u.user_id == existing.user_id) && u.email == email) then
      (s, .error "Failed to update existing user")
    else
      let updated : User :=
        { existing with
            password_hash := password_hash,
            email := email,
            is_admin := is_admin,
            updated_at := now }
      let users₁ := s.users.map (fun u =>
        if u.user_id == existing.user_id then updated else u)
      ({ s with users := users₁ }, .ok updated)
  | none =>
    if s.users.any (fun u => u.user_id == newId || u.email == email) then
      (s, .error "Failed to create user")
    else
      let fresh : User :=
        { user_id := newId, username := username, email := email,
          password_hash := password_hash, is_admin := is_admin,
          created_at := now, updated_at := now }
      ({ s with users := s.users ++ [fresh] }, .ok fresh)

/-- Embeds StorageManager::create_dm_conversation (lines 940-988): look for
an existing dm conversation joined to member rows for both users; if found
return it unchanged, else insert the conversation row and one member row
per user — plain INSERTs, so a (conversation_id, user_id) primary-key
collision aborts mid-way with the earlier inserts kept. -/
def create_dm_conversation (s : Store) (user_a_id user_b_id : String)
    (newId now : String) : Store × Except String Conversation :=
  match s.conversations.find? (fun c => c.kind == "dm" &&
      s.conversation_members.any (fun cm =>
        cm.conversation_id == c.conversation_id && cm.user_id == user_a_id) &&
      s.conversation_members.any (fun cm =>
        cm.conversation_id == c.conversation_id && cm.user_id == user_b_id)) with
  | some conv => (s, .ok conv)
  | none =>
    if s.conversations.any (fun c => c.conversation_id == newId) then
      (s, .error "Failed to create conversation")
    else
      let conv : Conversation :=
        { conversation_id := newId, kind := "dm", name := none,
          created_by := user_a_id, created_at := now, updated_at := now }
      let s₁ : Store := { s with conversations := s.conversations ++ [conv] }
      if s₁.conversation_members.any (fun cm =>
          cm.conversation_id == newId && cm.user_id == user_a_id) then
        (s₁, .error "Failed to add conversation member")
      else
        let members₁ := s₁.conversation_members ++ [⟨newId, user_a_id, now⟩]
        let s₂ : Store := { s₁ with conversation_members := members₁ }
        if s₂.conversation_members.any (fun cm =>
            cm.conversation_id == newId && cm.user_id == user_b_id) then
          (s₂, .error "Failed to add conversation member")
        else
          let members₂ := s₂.conversation_members ++ [⟨newId, user_b_id, now⟩]
          ({ s₂ with conversation_members := members₂ }, .ok conv)

/-- INSERT OR IGNORE into message_attachments under its composite primary
key. -/
def insertAttachmentIgnore (rows : List AttachmentRow) (message_id file_id : String) :
    List AttachmentRow :=
  if rows.any (fun a => a.message_id == message_id && a.file_id == file_id) then rows
  else rows ++ [⟨message_id, file_id⟩]

/-- The attachment resolution loop of create_message (lines 1181-1202):
each id is looked up among the sender-owned files; hits are linked (INSERT
OR IGNORE) and pushed onto the result, misses are skipped silently. The
files table is read-only throughout the loop, so it is passed separately. -/
def attachLoop (files : List File) (sender_id message_id : String) :
    List String → List AttachmentRow → List MessageAttachment →
    List AttachmentRow × List MessageAttachment
  | [], rows, acc => (rows, acc)
  | fid :: rest, rows, acc =>
    match files.find? (fun f => f.file_id == fid && f.user_id == sender_id) with
    | some f =>
      attachLoop files sender_id message_id rest
        (insertAttachmentIgnore rows message_id fid)
        (acc ++ [{ file_id := fid, file_name := f.file_name,
                   size_bytes := f.size_bytes, mime_type := mime_from_ext f.file_name }])
    | none => attachLoop files sender_id message_id rest rows acc

/-- What one attachment id resolves to, used to state the attachLoop
result: the first file row with that id owned by the sender, if any. -/
def resolveAttachment (files : List File) (sender_id fid : String) :
    Option MessageAttachment :=
  (files.find? (fun f => f.file_id == fid && f.user_id == sender_id)).map
    (fun f => { file_id := fid, file_name := f.file_name,
                size_bytes := f.size_bytes, mime_type := mime_from_ext f.file_name })

/-- Embeds StorageManager::create_message (lines 1159-1222): membership
check, message insert (message_id primary key), attachment loop, touch of
the conversation's updated_at, hydration of the sender's username. -/
def create_message (s : Store) (conversation_id sender_id body : String)
    (attachment_ids : List String) (newMsgId now : String) :
    Store × Except String Message :=
  if !is_conversation_member s conversation_id sender_id then
    (s, .error "User is not a member of this conversation")
  else if s.messages.any (fun m => m.message_id == newMsgId) then
    (s, .error "Failed to create message")
  else
    let row : MessageRow :=
      { message_id := newMsgId, conversation_id := conversation_id,
        sender_id := sender_id, body := body, created_at := now }
    let s₁ : Store := { s with messages := s.messages ++ [row] }
    let linked := attachLoop s₁.files sender_id newMsgId attachment_ids
      s₁.message_attachments []
    let s₂ : Store := { s₁ with message_attachments := linked.1 }
    let touched := s₂.conversations.map (fun c =>
      if c.conversation_id == conversation_id then { c with updated_at := now } else c)
    let s₃ : Store := { s₂ with conversations := touched }
    let username := ((get_user_by_id s sender_id).map (·.username)).getD ""
    (s₃, .ok { message_id := newMsgId, conversation_id := conversation_id,
               sender_id := sender_id, sender_username := username, body := body,
               attachments := linked.2, created_at := now })

/-- Embeds StorageManager::get_message_attachments (lines 1224-1241): the
INNER JOIN against files drops attachment rows whose file is gone. -/
def get_message_attachments (s : Store) (message_id : String) : List MessageAttachment :=
  (s.message_attachments.filter (fun ma => ma.message_id == message_id)).filterMap
    (fun ma => (s.files.find? (fun f => f.file_id == ma.file_id)).map
      (fun f => { file_id := ma.file_id, file_name := f.file_name,
                  size_bytes := f.size_bytes,
                  mime_type := mime_from_ext f.file_name }))

/-- Hydration of one raw message row as done in list_messages: username via
the users join, attachments via get_message_attachments. -/
def hydrateMessage (s : Store) (m : MessageRow) : Message :=
  { message_id := m.message_id, conversation_id := m.conversation_id,
    sender_id := m.sender_id,
    sender_username := ((s.users.find? (fun u => u.user_id == m.sender_id)).map
      (·.username)).getD "",
    body := m.body,
    attachments := get_message_attachments s m.message_id,
    created_at := m.created_at }

/-- The WHERE clause of list_messages: conversation match, INNER JOIN users
on the sender (a message without its user row is dropped by the join), and
the keyset cursor created_at < before when given. -/
def messageVisible (s : Store) (conversation_id : String) (before : Option String)
    (m : MessageRow) : Bool :=
  m.conversation_id == conversation_id &&
    s.users.any (fun u => u.user_id == m.sender_id) &&
    (match before with
     | some cursor => strLt m.created_at cursor
     | none => true)

/-- Embeds StorageManager::list_messages (lines 1256-1304): filter by
conversation and cursor, ORDER BY created_at DESC, LIMIT, hydrate. -/
def list_messages (s : Store) (conversation_id : String) (limit : Nat)
    (before : Option String) : List Message :=
  ((List.insertionSort (descBy MessageRow.created_at)
      (s.messages.filter (messageVisible s conversation_id before))).take limit).map
    (hydrateMessage s)

/-- Uniqueness of file names across the files table, the invariant claimed
for the store. -/
def fileNamesUnique (s : Store) : Prop :=
  (s.files.map File.file_name).Nodup

instance (s : Store) : Decidable (fileNamesUnique s) :=
  inferInstanceAs (Decidable ((s.files.map File.file_name).Nodup))

/-- A store whose one conversation holds 120 messages, two of which share
the created_at value 218: a concrete instance of the pagination claim's
premise in which timestamps are not pairwise distinct. -/
def paginationCexStore : Store :=
  { users := [⟨"u1", "alice", "a@x", "H", true, "t", "t"⟩],
    messages := (List.range 120).map (fun i =>
      { message_id := "m" ++ toString i, conversation_id := "c1", sender_id := "u1",
        body := "b",
        created_at := if i == 119 then "218" else toString (100 + i) }) }

/-- A store whose one conversation holds 120 messages with pairwise
distinct timestamps 100..219, satisfying the amended pagination claim's
hypotheses. -/
def paginationWitnessStore : Store :=
  { users := [⟨"u1", "alice", "a@x", "H", true, "t", "t"⟩],
    messages := (List.range 120).map (fun i =>
      { message_id := "m" ++ toString i, conversation_id := "c1", sender_id := "u1",
        body := "b", created_at := toString (100 + i) }) }

end storage_manager

namespace hub_api

open storage_manager

/-- The bucket's token count after the refill stage of RateLimiter::check:
the entry's count (or_insert starts an absent ip at max_tokens), topped up
by the computed refill and capped at capacity. The Instant arithmetic is
abstracted into the refill argument: the value of
(elapsed * refill_per_sec) as u32 for this call — the float-to-int cast
saturates, hence the clamp to u32::MAX; the subsequent u32 addition wraps
(release semantics), hence the modulus. -/
def tokensAfterRefill (max_tokens : Nat) (buckets : List (String × Nat)) (ip : String)
    (refill : Nat) : Nat :=
  let cur := ((buckets.find? (fun p => p.1 == ip)).map Prod.snd).getD max_tokens
  let refillC := Nat.min refill 4294967295
  if refillC > 0 then Nat.min ((cur + refillC) % 4294967296) max_tokens else cur

/-- Embeds RateLimiter::check (hub_api.rs lines 40-58) on one bucket map:
refill stage, then consume a token if any remain. -/
def rlCheck (max_tokens : Nat) (buckets : List (String × Nat)) (ip : String)
    (refill : Nat) : List (String × Nat) × Bool :=
  let tokens := tokensAfterRefill max_tokens buckets ip refill
  let store := fun v =>
    if buckets.any (fun p => p.1 == ip) then
      buckets.map (fun p => if p.1 == ip then (ip, v) else p)
    else buckets ++ [(ip, v)]
  if tokens > 0 then (store (tokens - 1), true) else (store tokens, false)

/-- A sequence of RateLimiter::check calls starting from RateLimiter::new
(an empty bucket map); each op is the caller ip with that call's computed
refill. -/
def runChecks (max_tokens : Nat) (ops : List (String × Nat)) : List (String × Nat) :=
  ops.foldl (fun b op => (rlCheck max_tokens b op.1 op.2).1) []

structure RegisterRequest where
  username : String
  email : String
  password : String
deriving DecidableEq

structure LoginRequest where
  username : String
  password : String
deriving DecidableEq

structure AuthToken where
  token : String
  expires_at : String
deriving DecidableEq

structure AuthResponse where
  user_id : String
  username : String
  email : String
  is_admin : Bool
  token : String
  expires_at : String
deriving DecidableEq

structure SendMessageRequest where
  body : String
  attachment_ids : List String
deriving DecidableEq

/-- Embeds the register handler (hub_api.rs lines 650-700). rateOk is the
outcome of auth_limiter.check for the caller's ip; hashp and genToken stand
for auth::hash_password and auth::generate_token, whose outputs no claim
inspects. Statuses are the numeric HTTP codes the handler returns. -/
def register (s : Store) (req : RegisterRequest) (rateOk : Bool)
    (hashp : String → String) (genToken : String → String → Bool → AuthToken)
    (newId now : String) : Store × Except Nat AuthResponse :=
  if !rateOk then (s, .error 429)
  else if req.username == "" || req.email == "" || req.password == "" then
    (s, .error 400)
  else if (get_user_by_username s req.username).isSome then (s, .error 409)
  else
    let password_hash := hashp req.password
    let user_count := (list_users s).length
    let is_admin := user_count == 0
    match create_user s req.username req.email password_hash is_admin newId now with
    | (s₁, .error _) => (s₁, .error 500)
    | (s₁, .ok user) =>
      let tok := genToken user.user_id user.username user.is_admin
      (s₁, .ok { user_id := user.user_id, username := user.username,
                 email := user.email, is_admin := user.is_admin,
                 token := tok.token, expires_at := tok.expires_at })

/-- Embeds the login handler (hub_api.rs lines 703-747). verifyp stands for
auth::verify_password on a well-formed stored hash. -/
def login (s : Store) (req : LoginRequest) (rateOk : Bool)
    (verifyp : String → String → Bool) (genToken : String → String → Bool → AuthToken) :
    Except Nat AuthResponse :=
  if !rateOk then .error 429
  else
    match get_user_by_username s req.username with
    | none => .error 401
    | some user =>
      match get_password_hash s req.username with
      | none => .error 401
      | some password_hash =>
        if !(verifyp req.password password_hash) then .error 401
        else
          let tok := genToken user.user_id user.username user.is_admin
          .ok { user_id := user.user_id, username := user.username,
                email := user.email, is_admin := user.is_admin,
                token := tok.token, expires_at := tok.expires_at }

/-- Embeds the send_message handler (hub_api.rs lines 528-565) after token
validation: the emptiness check, then storage create_message; storage
failures surface as 500. -/
def send_message (s : Store) (conversation_id claims_sub : String)
    (req : SendMessageRequest) (newMsgId now : String) : Store × Except Nat Message :=
  if req.body == "" && req.attachment_ids.isEmpty then (s, .error 400)
  else
    match create_message s conversation_id claims_sub req.body req.attachment_ids
        newMsgId now with
    | (s₁, .error _) => (s₁, .error 500)
    | (s₁, .ok m) => (s₁, .ok m)

/-- The limit the get_messages handler passes to storage:
query.limit.unwrap_or(50).min(100) (hub_api.rs line 585). -/
def effectiveLimit (limitQ : Option Nat) : Nat :=
  (limitQ.getD 50).min 100

/-- Embeds the get_messages handler (hub_api.rs lines 568-590) after token
validation: membership check, then the limit clamp, then storage
list_messages. -/
def get_messages (s : Store) (conversation_id claims_sub : String)
    (limitQ : Option Nat) (before : Option String) : Except Nat (List Message) :=
  if !is_conversation_member s conversation_id claims_sub then .error 403
  else .ok (list_messages s conversation_id (effectiveLimit limitQ) before)

/-- Projection used to state registration outcomes: the is_admin flag of a
successful response, none on an error response. -/
def okIsAdmin (r : Except Nat AuthResponse) : Option Bool :=
  r.toOption.map AuthResponse.is_admin

end hub_api

namespace tunnel

/-- The tunnel supervision protocol state (lib.rs): the manual-stop flag
tunnel_stopped_manually, whether a TunnelConfig exists, whether the child
process is live, and the watchdog-local was_running variable (lib.rs line
872). -/
structure SupState where
  manualStop : Bool
  configured : Bool
  running : Bool
  wasRunning : Bool
deriving DecidableEq

/-- The atomic protocol events: the stop_tunnel command (lib.rs lines
477-488), the start_tunnel command with its spawn outcome (lines 452-475),
an external crash of the child process (observed by get_status as
not-running), and one watchdog iteration with its restart outcome (lines
874-917). -/
inductive Event where
  | stopCmd : Event
  | startCmd : Bool → Event
  | crash : Event
  | tick : Bool → Event
deriving DecidableEq

/-- Whether one watchdog iteration reaches the tm.start_tunnel call: the
manual-stop flag is clear, the status poll reports not running, the tunnel
was last observed running, and it is configured. -/
def tickInvokesStart (s : SupState) : Bool :=
  !s.manualStop && !s.running && s.wasRunning && s.configured

/-- Whether an event invokes start() through its path: the manual command
always heads into start (clearing the flag first), a watchdog tick only
under tickInvokesStart. -/
def invokesStart (s : SupState) (e : Event) : Bool :=
  match e with
  | .startCmd _ => true
  | .tick _ => tickInvokesStart s
  | _ => false

/-- One protocol step.
stopCmd: sets the manual-stop flag, kills the child.
startCmd ok: clears the flag first (lib.rs lines 454-457), then spawns if
configured, not already running, and the spawn succeeds.
crash: the child dies; get_status later reports not running.
tick ok: the watchdog iteration — skip when the flag is set (resetting
was_running), remember a running tunnel, else auto-restart when it was
running, is configured, and the flag is clear. -/
def step (s : SupState) (e : Event) : SupState :=
  match e with
  | .stopCmd => { s with manualStop := true, running := false }
  | .startCmd ok =>
    let s₁ : SupState := { s with manualStop := false }
    if s₁.configured && !s₁.running && ok then { s₁ with running := true } else s₁
  | .crash => { s with running := false }
  | .tick ok =>
    if s.manualStop then { s with wasRunning := false }
    else if s.running then { s with wasRunning := true }
    else if s.wasRunning && s.configured then
      if ok then { s with running := true, wasRunning := true }
      else { s with wasRunning := false }
    else s

/-- A protocol execution: fold of steps over an event trace. -/
def run (s : SupState) (es : List Event) : SupState := es.foldl step s

/-- Whether an event is the manual start command, the only flag-clearing
path reachable from a manually-stopped state. -/
def isStartCmd : Event → Bool
  | .startCmd _ => true
  | _ => false

end tunnel

theorem charListLt_asymm : ∀ {x y : List Char},
    charListLt x y = true → charListLt y x = false := by
  intro x
  induction x with
  | nil => intro y h; cases y <;> simp_all [charListLt]
  | cons a as ih =>
    intro y h
    cases y with
    | nil => simp_all [charListLt]
    | cons b bs =>
      simp only [charListLt] at h ⊢
      rcases Nat.lt_trichotomy a.toNat b.toNat with hlt | heq | hgt
      · have hnab : ¬ b.toNat < a.toNat := by omega
        simp [hlt, hnab]
      · have h1 : ¬ a.toNat < b.toNat := by omega
        have h2 : ¬ b.toNat < a.toNat := by omega
        simp only [if_neg h1, if_neg h2] at h ⊢
        exact ih h
      · have hnab : ¬ a.toNat < b.toNat := by omega
        simp [hgt, hnab] at h

theorem charListLt_trans : ∀ {x y z : List Char},
    charListLt x y = true → charListLt y z = true → charListLt x z = true := by
  intro x
  induction x with
  | nil =>
    intro y z hxy hyz
    cases y with
    | nil => simp_all [charListLt]
    | cons b bs => cases z <;> simp_all [charListLt]
  | cons a as ih =>
    intro y z hxy hyz
    cases y with
    | nil => simp_all [charListLt]
    | cons b bs =>
      cases z with
      | nil => simp_all [charListLt]
      | cons c cs =>
        simp only [charListLt] at hxy hyz ⊢
        rcases Nat.lt_trichotomy a.toNat b.toNat with hab | hab | hab
        · rcases Nat.lt_trichotomy b.toNat c.toNat with hbc | hbc | hbc
          · have hac : a.toNat < c.toNat := by omega
            simp [hac]
          · have hac : a.toNat < c.toNat := by omega
            simp [hac]
          · have h3 : ¬ b.toNat < c.toNat := by omega
            simp [h3, hbc] at hyz
        · rcases Nat.lt_trichotomy b.toNat c.toNat with hbc | hbc | hbc
          · have hac : a.toNat < c.toNat := by omega
            simp [hac]
          · have h1 : ¬ a.toNat < b.toNat := by omega
            have h2 : ¬ b.toNat < a.toNat := by omega
            have h3 : ¬ b.toNat < c.toNat := by omega
            have h4 : ¬ c.toNat < b.toNat := by omega
            simp only [if_neg h1, if_neg h2] at hxy
            simp only [if_neg h3, if_neg h4] at hyz
            have h5 : ¬ a.toNat < c.toNat := by omega
            have h6 : ¬ c.toNat < a.toNat := by omega
            simp only [if_neg h5, if_neg h6]
            exact ih hxy hyz
          · have h3 : ¬ b.toNat < c.toNat := by omega
            simp [h3, hbc] at hyz
        · have h1 : ¬ a.toNat < b.toNat := by omega
          simp [h1, hab] at hxy

theorem charListLt_eq_of_not : ∀ {x y : List Char},
    charListLt x y = false → charListLt y x = false → x = y := by
  intro x
  induction x with
  | nil => intro y h1 h2; cases y <;> simp_all [charListLt]
  | cons a as ih =>
    intro y h1 h2
    cases y with
    | nil => simp_all [charListLt]
    | cons b bs =>
      simp only [charListLt] at h1 h2
      rcases Nat.lt_trichotomy a.toNat b.toNat with hab | hab | hab
      · simp [hab] at h1
      · have hv : a = b := by
          apply Char.eq_of_val_eq
          apply UInt32.ext
          simpa [UInt32.toNat] using hab
        subst hv
        have h3 : ¬ a.toNat < a.toNat := by omega
        simp only [if_neg h3] at h1 h2
        exact congrArg (a :: ·) (ih h1 h2)
      · simp [hab] at h2

/-- Asymmetry transported to strings. -/
theorem strLt_asymm {a b : String} (h : strLt a b = true) : strLt b a = false :=
  charListLt_asymm h

/-- Two strings unrelated by strLt in either direction are equal. -/
theorem strLt_eq_of_not {a b : String} (h1 : strLt a b = false) (h2 : strLt b a = false) :
    a = b := by
  have hd := charListLt_eq_of_not (x := a.data) (y := b.data) h1 h2
  cases a
  cases b
  exact congrArg String.mk hd

/-- Transitivity of the non-strict order strLe. -/
theorem strLe_trans {a b c : String} (h1 : strLe a b = true) (h2 : strLe b c = true) :
    strLe a c = true := by
  simp only [strLe, Bool.not_eq_true'] at h1 h2 ⊢
  by_contra hx
  simp only [Bool.not_eq_false] at hx
  rcases hab : strLt a b with _ | _
  · have heq := strLt_eq_of_not hab h1
    subst heq
    rw [hx] at h2
    simp at h2
  · have hcb : strLt c b = true := charListLt_trans hx hab
    rw [hcb] at h2
    simp at h2

/-- Totality of the non-strict order strLe. -/
theorem strLe_total (a b : String) : strLe a b = true ∨ strLe b a = true := by
  simp only [strLe, Bool.not_eq_true']
  rcases h : strLt b a with _ | _
  · exact Or.inl rfl
  · exact Or.inr (charListLt_asymm h)

/-- C10 counterexample: the storage-layer MIME function maps an .ico file
to image/x-icon while the API-layer copy maps it to application/octet-stream,
so the two derivation functions do not agree on every filename. -/
theorem mime_from_ext_disagree_ico :
    storage_manager.mime_from_ext "favicon.ico" ≠ hub_api.mime_from_ext "favicon.ico" := by
  decide

set_option maxHeartbeats 1000000 in
/-- C10 (amended): the two MIME-type derivation functions return the same
string for every filename whose lowercased final extension is none of ico,
html, htm; on those three extensions they differ (storage knows ico, the API
layer knows html/htm). -/
theorem mime_from_ext_agree (name : String)
    (h1 : extOf name ≠ "ico") (h2 : extOf name ≠ "html") (h3 : extOf name ≠ "htm") :
    storage_manager.mime_from_ext name = hub_api.mime_from_ext name := by
  unfold storage_manager.mime_from_ext hub_api.mime_from_ext
  dsimp only
  generalize extOf name = e at h1 h2 h3 ⊢
  rcases eq_or_ne e "jpg" with rfl | k01
  · rfl
  rcases eq_or_ne e "jpeg" with rfl | k02
  · rfl
  rcases eq_or_ne e "png" with rfl | k03
  · rfl
  rcases eq_or_ne e "gif" with rfl | k04
  · rfl
  rcases eq_or_ne e "webp" with rfl | k05
  · rfl
  rcases eq_or_ne e "svg" with rfl | k06
  · rfl
  rcases eq_or_ne e "bmp" with rfl | k07
  · rfl
  rcases eq_or_ne e "mp4" with rfl | k08
  · rfl
  rcases eq_or_ne e "m4v" with rfl | k09
  · rfl
  rcases eq_or_ne e "webm" with rfl | k10
  · rfl
  rcases eq_or_ne e "mov" with rfl | k11
  · rfl
  rcases eq_or_ne e "avi" with rfl | k12
  · rfl
  rcases eq_or_ne e "mkv" with rfl | k13
  · rfl
  rcases eq_or_ne e "ogv" with rfl | k14
  · rfl
  rcases eq_or_ne e "3gp" with rfl | k15
  · rfl
  rcases eq_or_ne e "pdf" with rfl | k16
  · rfl
  rcases eq_or_ne e "txt" with rfl | k17
  · rfl
  rcases eq_or_ne e "json" with rfl | k18
  · rfl
  rcases eq_or_ne e "zip" with rfl | k19
  · rfl
  simp only [if_neg k01, if_neg k02, if_neg k03, if_neg k04, if_neg k05, if_neg k06,
    if_neg k07, if_neg k08, if_neg k09, if_neg k10, if_neg k11, if_neg k12, if_neg k13,
    if_neg k14, if_neg k15, if_neg k16, if_neg k17, if_neg k18, if_neg k19,
    if_neg h1, if_neg h2, if_neg h3]

/-- C10 witness: a concrete filename with a png extension satisfies the
side conditions and both functions yield image/png on it. -/
theorem mime_from_ext_agree_witness :
    (extOf "photo.PNG" ≠ "ico" ∧ extOf "photo.PNG" ≠ "html" ∧ extOf "photo.PNG" ≠ "htm")
      ∧ storage_manager.mime_from_ext "photo.PNG" = hub_api.mime_from_ext "photo.PNG" :=
  ⟨by decide, mime_from_ext_agree "photo.PNG" (by decide) (by decide) (by decide)⟩

/-! ## C9 — rate limiter -/

/-- One check keeps every bucket at or below capacity. -/
theorem rlCheck_fst_bound {max_tokens : Nat} {buckets : List (String × Nat)}
    {ip : String} {refill : Nat} (hInv : ∀ q ∈ buckets, q.2 ≤ max_tokens) :
    ∀ q ∈ (hub_api.rlCheck max_tokens buckets ip refill).1, q.2 ≤ max_tokens := by
  have htok : hub_api.tokensAfterRefill max_tokens buckets ip refill ≤ max_tokens := by
    unfold hub_api.tokensAfterRefill
    dsimp only
    split
    · exact Nat.min_le_right _ _
    · rcases hfind : buckets.find? (fun p => p.1 == ip) with _ | p
      · simp [hfind]
      · simp only [hfind, Option.map_some', Option.getD_some]
        exact hInv p (List.mem_of_find?_eq_some hfind)
  have hstore : ∀ v, v ≤ max_tokens →
      ∀ q ∈ (if buckets.any (fun p => p.1 == ip) then
          buckets.map (fun p => if p.1 == ip then (ip, v) else p)
        else buckets ++ [(ip, v)]), q.2 ≤ max_tokens := by
    intro v hv q hq
    split at hq
    · rcases List.mem_map.mp hq with ⟨p, hp, rfl⟩
      by_cases hpi : p.1 == ip
      · simp only [hpi, if_pos]
        exact hv
      · simp only [hpi, if_neg, Bool.false_eq_true, not_false_iff]
        simpa using hInv p hp
    · rcases List.mem_append.mp hq with h | h
      · exact hInv q h
      · simp only [List.mem_singleton] at h
        subst h
        exact hv
  intro q hq
  unfold hub_api.rlCheck at hq
  dsimp only at hq
  split at hq
  · exact hstore _ (le_trans (Nat.sub_le _ _) htok) q hq
  · exact hstore _ htok q hq

/-- Folding checks over any op sequence keeps every bucket at or below
capacity. -/
theorem runChecks_fold_bound (max_tokens : Nat) :
    ∀ (ops : List (String × Nat)) (buckets : List (String × Nat)),
      (∀ q ∈ buckets, q.2 ≤ max_tokens) →
      ∀ q ∈ ops.foldl (fun b op => (hub_api.rlCheck max_tokens b op.1 op.2).1) buckets,
        q.2 ≤ max_tokens := by
  intro ops
  induction ops with
  | nil =>
    intro buckets hInv q hq
    simpa using hInv q (by simpa using hq)
  | cons op rest ih =>
    intro buckets hInv q hq
    simp only [List.foldl_cons] at hq
    exact ih _ (rlCheck_fst_bound hInv) q hq

/-- C9: for every client ip and every sequence of RateLimiter::check calls
starting from a fresh limiter, no bucket's token count ever exceeds the
configured max_tokens (refills are capped at capacity), and a single check
returns false exactly when the bucket's token count is zero after the
refill stage. -/
theorem rateLimiter_check_spec (max_tokens : Nat) :
    (∀ ops : List (String × Nat), ∀ q ∈ hub_api.runChecks max_tokens ops,
      q.2 ≤ max_tokens)
    ∧ (∀ (buckets : List (String × Nat)) (ip : String) (refill : Nat),
        (hub_api.rlCheck max_tokens buckets ip refill).2 = false
          ↔ hub_api.tokensAfterRefill max_tokens buckets ip refill = 0) := by
  constructor
  · intro ops q hq
    exact runChecks_fold_bound max_tokens ops [] (by intro q hq; simp at hq) q hq
  · intro buckets ip refill
    unfold hub_api.rlCheck
    dsimp only
    rcases Nat.eq_zero_or_pos (hub_api.tokensAfterRefill max_tokens buckets ip refill)
      with h0 | hpos
    · simp [h0]
    · have hne := Nat.pos_iff_ne_zero.mp hpos
      simp [hpos, hne]

/-- C9 witness: a two-call sequence on one ip from a fresh limiter of
capacity 3 leaves the bucket at 1 ≤ 3, and the single-check
characterisation holds at a concrete drained bucket. -/
theorem rateLimiter_check_spec_witness :
    (("a", 1) ∈ hub_api.runChecks 3 [("a", 0), ("a", 0)] ∧ 1 ≤ 3)
    ∧ ((hub_api.rlCheck 3 [("a", 0)] "a" 0).2 = false
        ↔ hub_api.tokensAfterRefill 3 [("a", 0)] "a" 0 = 0) :=
  ⟨⟨by decide, (rateLimiter_check_spec 3).1 [("a", 0), ("a", 0)] ("a", 1) (by decide)⟩,
   (rateLimiter_check_spec 3).2 [("a", 0)] "a" 0⟩

/-! ## C6 — tunnel supervision -/

/-- From a manually-stopped state, any trace free of manual start commands
keeps the flag set and the tunnel stopped. -/
theorem run_stays_stopped :
    ∀ (es : List tunnel.Event) (s : tunnel.SupState),
      s.manualStop = true → s.running = false →
      (∀ e ∈ es, tunnel.isStartCmd e = false) →
      (tunnel.run s es).manualStop = true ∧ (tunnel.run s es).running = false := by
  intro es
  induction es with
  | nil =>
    intro s hflag hstop _
    exact ⟨hflag, hstop⟩
  | cons e rest ih =>
    intro s hflag hstop hns
    have he := hns e (List.mem_cons_self _ _)
    have hrest : ∀ x ∈ rest, tunnel.isStartCmd x = false :=
      fun x hx => hns x (List.mem_cons_of_mem _ hx)
    have hstep : (tunnel.step s e).manualStop = true ∧ (tunnel.step s e).running = false := by
      cases e with
      | stopCmd => simp [tunnel.step]
      | startCmd ok => simp [tunnel.isStartCmd] at he
      | crash => simp [tunnel.step, hflag]
      | tick ok => simp [tunnel.step, hflag, hstop]
    have : tunnel.run s (e :: rest) = tunnel.run (tunnel.step s e) rest := by
      simp [tunnel.run]
    rw [this]
    exact ih (tunnel.step s e) hstep.1 hstep.2 hrest

set_option maxHeartbeats 1000000 in
/-- C6: once stop() has set the manual-stop flag the watchdog never invokes
start() and the tunnel stays stopped with the flag set for as long as no
start command arrives through any path; a watchdog tick under the flag
never reaches start; and whenever start() is invoked through any path —
manual command or watchdog auto-restart — the state after the step has the
flag clear, so a later crash is again eligible for auto-restart. -/
theorem manual_stop_supervision (s : tunnel.SupState) (es : List tunnel.Event)
    (hflag : s.manualStop = true) (hstop : s.running = false)
    (hns : ∀ e ∈ es, tunnel.isStartCmd e = false) :
    ((tunnel.run s es).manualStop = true ∧ (tunnel.run s es).running = false)
    ∧ (∀ (t : tunnel.SupState) (ok : Bool), t.manualStop = true →
        tunnel.invokesStart t (tunnel.Event.tick ok) = false)
    ∧ (∀ (t : tunnel.SupState) (e : tunnel.Event),
        tunnel.invokesStart t e = true → (tunnel.step t e).manualStop = false) := by
  refine ⟨run_stays_stopped es s hflag hstop hns, ?_, ?_⟩
  · intro t ok ht
    simp [tunnel.invokesStart, tunnel.tickInvokesStart, ht]
  · intro t e hinv
    cases e with
    | stopCmd => simp [tunnel.invokesStart] at hinv
    | crash => simp [tunnel.invokesStart] at hinv
    | startCmd ok =>
      simp only [tunnel.step]
      split <;> rfl
    | tick ok =>
      simp only [tunnel.invokesStart, tunnel.tickInvokesStart,
        Bool.and_eq_true, Bool.not_eq_true'] at hinv
      obtain ⟨⟨⟨hms, hrun⟩, hwas⟩, hcfg⟩ := hinv
      simp [tunnel.step, hms, hrun, hwas, hcfg]
      split <;> rfl

/-- C6 witness: from a configured, manually-stopped state, a trace of
watchdog ticks and a crash leaves the flag set and the tunnel stopped, and
the two general conjuncts are instantiated along with it. -/
theorem manual_stop_supervision_witness :
    ((⟨true, true, false, true⟩ : tunnel.SupState).manualStop = true
      ∧ (⟨true, true, false, true⟩ : tunnel.SupState).running = false
      ∧ (∀ e ∈ [tunnel.Event.tick true, tunnel.Event.crash, tunnel.Event.tick false],
          tunnel.isStartCmd e = false))
    ∧ (((tunnel.run ⟨true, true, false, true⟩
          [tunnel.Event.tick true, tunnel.Event.crash, tunnel.Event.tick false]).manualStop = true
        ∧ (tunnel.run ⟨true, true, false, true⟩
          [tunnel.Event.tick true, tunnel.Event.crash, tunnel.Event.tick false]).running = false)
      ∧ (∀ (t : tunnel.SupState) (ok : Bool), t.manualStop = true →
          tunnel.invokesStart t (tunnel.Event.tick ok) = false)
      ∧ (∀ (t : tunnel.SupState) (e : tunnel.Event),
          tunnel.invokesStart t e = true → (tunnel.step t e).manualStop = false)) :=
  ⟨⟨rfl, rfl, by decide⟩,
   manual_stop_supervision ⟨true, true, false, true⟩
     [tunnel.Event.tick true, tunnel.Event.crash, tunnel.Event.tick false]
     rfl rfl (by decide)⟩

/-! ## C8 — uniform login failure -/

/-- C8: with the rate limit passed, the login response for a username that
does not exist and the response for an existing username with a wrong
password are the same value — the bare 401 status with no body — so a
login failure never reveals whether the username exists. -/
theorem login_uniform_401 (s : storage_manager.Store) (r1 r2 : hub_api.LoginRequest)
    (verifyp : String → String → Bool)
    (genToken : String → String → Bool → hub_api.AuthToken) (u : storage_manager.User)
    (h1 : storage_manager.get_user_by_username s r1.username = none)
    (h2 : storage_manager.get_user_by_username s r2.username = some u)
    (h3 : verifyp r2.password u.password_hash = false) :
    hub_api.login s r1 true verifyp genToken = .error 401
    ∧ hub_api.login s r2 true verifyp genToken = .error 401
    ∧ hub_api.login s r1 true verifyp genToken
        = hub_api.login s r2 true verifyp genToken := by
  have hh : storage_manager.get_password_hash s r2.username = some u.password_hash := by
    unfold storage_manager.get_user_by_username at h2
    unfold storage_manager.get_password_hash
    rw [h2]
    rfl
  have e1 : hub_api.login s r1 true verifyp genToken = .error 401 := by
    simp [hub_api.login, h1]
  have e2 : hub_api.login s r2 true verifyp genToken = .error 401 := by
    simp [hub_api.login, h2, hh, h3]
  exact ⟨e1, e2, e1.trans e2.symm⟩

/-- C8 witness: a store with one user alice; r1 asks for the unknown
username mallory, r2 for alice with a password the verifier rejects; both
logins return the 401 error. -/
theorem login_uniform_401_witness :
    (storage_manager.get_user_by_username
        { users := [⟨"u1", "alice", "a@x", "H1", true, "t1", "t1"⟩] } "mallory" = none
      ∧ storage_manager.get_user_by_username
        { users := [⟨"u1", "alice", "a@x", "H1", true, "t1", "t1"⟩] } "alice"
          = some ⟨"u1", "alice", "a@x", "H1", true, "t1", "t1"⟩
      ∧ (fun (_ _ : String) => false) "wrong" "H1" = false)
    ∧ (hub_api.login { users := [⟨"u1", "alice", "a@x", "H1", true, "t1", "t1"⟩] }
        ⟨"mallory", "wrong"⟩ true (fun _ _ => false) (fun _ _ _ => ⟨"tok", "exp"⟩)
          = .error 401
      ∧ hub_api.login { users := [⟨"u1", "alice", "a@x", "H1", true, "t1", "t1"⟩] }
        ⟨"alice", "wrong"⟩ true (fun _ _ => false) (fun _ _ _ => ⟨"tok", "exp"⟩)
          = .error 401
      ∧ hub_api.login { users := [⟨"u1", "alice", "a@x", "H1", true, "t1", "t1"⟩] }
        ⟨"mallory", "wrong"⟩ true (fun _ _ => false) (fun _ _ _ => ⟨"tok", "exp"⟩)
          = hub_api.login { users := [⟨"u1", "alice", "a@x", "H1", true, "t1", "t1"⟩] }
            ⟨"alice", "wrong"⟩ true (fun _ _ => false) (fun _ _ _ => ⟨"tok", "exp"⟩)) :=
  ⟨⟨by decide, by decide, rfl⟩,
   login_uniform_401 { users := [⟨"u1", "alice", "a@x", "H1", true, "t1", "t1"⟩] }
     ⟨"mallory", "wrong"⟩ ⟨"alice", "wrong"⟩ (fun _ _ => false)
     (fun _ _ _ => ⟨"tok", "exp"⟩) ⟨"u1", "alice", "a@x", "H1", true, "t1", "t1"⟩
     (by decide) (by decide) rfl⟩

/-! ## C5 — registration policy -/

/-- C5: for a well-formed registration request passing the rate limit: when
no user exists yet the created user is an admin; when at least one user
exists (and the insert's uniqueness constraints are satisfiable) the
created user is not an admin; and a request whose username matches an
existing user is rejected with the 409 conflict status, leaving the store
unchanged. -/
theorem register_admin_policy (s : storage_manager.Store) (req : hub_api.RegisterRequest)
    (hashp : String → String) (genToken : String → String → Bool → hub_api.AuthToken)
    (newId now : String)
    (hu : req.username ≠ "") (he : req.email ≠ "") (hp : req.password ≠ "") :
    (s.users = [] →
      hub_api.okIsAdmin (hub_api.register s req true hashp genToken newId now).2
        = some true)
    ∧ (s.users ≠ [] →
        storage_manager.get_user_by_username s req.username = none →
        (∀ v ∈ s.users, v.email ≠ req.email) →
        (∀ v ∈ s.users, v.user_id ≠ newId) →
        hub_api.okIsAdmin (hub_api.register s req true hashp genToken newId now).2
          = some false)
    ∧ (∀ v, storage_manager.get_user_by_username s req.username = some v →
        hub_api.register s req true hashp genToken newId now = (s, .error 409)) := by
  have hbu : (req.username == "") = false := beq_eq_false_iff_ne.mpr hu
  have hbe : (req.email == "") = false := beq_eq_false_iff_ne.mpr he
  have hbp : (req.password == "") = false := beq_eq_false_iff_ne.mpr hp
  refine ⟨?_, ?_, ?_⟩
  · intro h0
    simp [hub_api.register, hub_api.okIsAdmin, storage_manager.get_user_by_username,
      storage_manager.create_user, storage_manager.list_users, h0, hbu, hbe, hbp,
      List.insertionSort]
    exact ⟨_, rfl, rfl⟩
  · intro hne hnouser hemail hid
    have hlen : ((storage_manager.list_users s).length == 0) = false := by
      have hperm : (storage_manager.list_users s).length = s.users.length :=
        (List.perm_insertionSort _ _).length_eq
      have : s.users.length ≠ 0 := fun hz => hne (List.length_eq_zero.mp hz)
      rw [hperm]
      exact beq_eq_false_iff_ne.mpr this
    have hany : (s.users.any (fun v => v.user_id == newId || v.email == req.email))
        = false := by
      apply Bool.eq_false_iff.mpr
      intro hcon
      rw [List.any_eq_true] at hcon
      rcases hcon with ⟨v, hv, hpv⟩
      rcases Bool.or_eq_true_iff.mp hpv with h | h
      · exact hid v hv (by simpa using h)
      · exact hemail v hv (by simpa using h)
    simp [hub_api.register, hub_api.okIsAdmin, storage_manager.create_user,
      hnouser, hany, hlen, hbu, hbe, hbp]
    exact ⟨_, rfl, rfl⟩
  · intro v hv
    simp [hub_api.register, hbu, hbe, hbp, hv]

/-- C5 witness: on the empty store the first registration creates an admin;
on a one-user store a fresh registration creates a non-admin and a
duplicate username is rejected with 409 leaving the store unchanged. -/
theorem register_admin_policy_witness :
    ("bob" ≠ "" ∧ "b@x" ≠ "" ∧ "pw" ≠ "")
    ∧ hub_api.okIsAdmin
        (hub_api.register ({} : storage_manager.Store) ⟨"bob", "b@x", "pw"⟩ true
          (fun _ => "H") (fun _ _ _ => ⟨"tok", "exp"⟩) "u9" "t9").2 = some true
    ∧ hub_api.okIsAdmin
        (hub_api.register { users := [⟨"u1", "alice", "a@x", "H1", true, "t1", "t1"⟩] }
          ⟨"bob", "b@x", "pw"⟩ true
          (fun _ => "H") (fun _ _ _ => ⟨"tok", "exp"⟩) "u9" "t9").2 = some false
    ∧ hub_api.register { users := [⟨"u1", "alice", "a@x", "H1", true, "t1", "t1"⟩] }
        ⟨"alice", "b@x", "pw"⟩ true (fun _ => "H") (fun _ _ _ => ⟨"tok", "exp"⟩) "u9" "t9"
        = ({ users := [⟨"u1", "alice", "a@x", "H1", true, "t1", "t1"⟩] }, .error 409) :=
  ⟨⟨by decide, by decide, by decide⟩,
   (register_admin_policy ({} : storage_manager.Store) ⟨"bob", "b@x", "pw"⟩
     (fun _ => "H") (fun _ _ _ => ⟨"tok", "exp"⟩) "u9" "t9"
     (by decide) (by decide) (by decide)).1 rfl,
   (register_admin_policy { users := [⟨"u1", "alice", "a@x", "H1", true, "t1", "t1"⟩] }
     ⟨"bob", "b@x", "pw"⟩ (fun _ => "H") (fun _ _ _ => ⟨"tok", "exp"⟩) "u9" "t9"
     (by decide) (by decide) (by decide)).2.1 (by decide) (by decide)
     (by decide) (by decide),
   (register_admin_policy { users := [⟨"u1", "alice", "a@x", "H1", true, "t1", "t1"⟩] }
     ⟨"alice", "b@x", "pw"⟩ (fun _ => "H") (fun _ _ _ => ⟨"tok", "exp"⟩) "u9" "t9"
     (by decide) (by decide) (by decide)).2.2
     ⟨"u1", "alice", "a@x", "H1", true, "t1", "t1"⟩ (by decide)⟩

/-! ## C7 — file-name uniqueness (violated by the code) -/

/-- C7: evaluation of the code at the failing input. Two uploads of the
same file name by different users both succeed: the second insert goes
through (the files table has no UNIQUE constraint on file_name and
upload_file performs no duplicate check), leaving two metadata rows with
the same file_name while the on-disk blob now holds the second uploader's
bytes — so file_name does not identify at most one file record. -/
theorem upload_file_duplicate_name :
    (((storage_manager.upload_file
        ((storage_manager.upload_file ({} : storage_manager.Store)
          "alice" "a.txt" "alice-bytes" false "f1" "t1").1)
        "bob" "a.txt" "bob-bytes" false "f2" "t2").1).files.map
          storage_manager.File.file_name = ["a.txt", "a.txt"])
    ∧ ¬ storage_manager.fileNamesUnique
        ((storage_manager.upload_file
          ((storage_manager.upload_file ({} : storage_manager.Store)
            "alice" "a.txt" "alice-bytes" false "f1" "t1").1)
          "bob" "a.txt" "bob-bytes" false "f2" "t2").1)
    ∧ ((storage_manager.upload_file
          ((storage_manager.upload_file ({} : storage_manager.Store)
            "alice" "a.txt" "alice-bytes" false "f1" "t1").1)
          "bob" "a.txt" "bob-bytes" false "f2" "t2").2.isOk = true)
    ∧ storage_manager.diskRead
        ((storage_manager.upload_file
          ((storage_manager.upload_file ({} : storage_manager.Store)
            "alice" "a.txt" "alice-bytes" false "f1" "t1").1)
          "bob" "a.txt" "bob-bytes" false "f2" "t2").1).disk "a.txt"
        = some "bob-bytes" := by
  decide

/-! ## C2 — create_message / send_message -/

/-- The attachment loop returns exactly the resolved attachments, in id
order, with unresolvable ids dropped. -/
theorem attachLoop_snd (files : List storage_manager.File) (sender mid : String) :
    ∀ (ids : List String) (rows : List storage_manager.AttachmentRow)
      (acc : List storage_manager.MessageAttachment),
      (storage_manager.attachLoop files sender mid ids rows acc).2
        = acc ++ ids.filterMap (storage_manager.resolveAttachment files sender) := by
  intro ids
  induction ids with
  | nil =>
    intro rows acc
    simp [storage_manager.attachLoop]
  | cons fid rest ih =>
    intro rows acc
    rcases hf : files.find? (fun f => f.file_id == fid && f.user_id == sender) with _ | f
    · simp [storage_manager.attachLoop, hf, ih, storage_manager.resolveAttachment]
    · simp [storage_manager.attachLoop, hf, ih, storage_manager.resolveAttachment]

/-- C2: send_message fails when the sender is not a current member of the
conversation, fails with 400 when the body is empty and no attachment is
present, and otherwise (on a fresh message id) succeeds with exactly the
attachment ids that resolve to sender-owned files — unresolvable ids are
dropped from the result silently rather than causing an error. -/
theorem send_message_spec (s : storage_manager.Store) (conversation_id sender : String)
    (req : hub_api.SendMessageRequest) (newMsgId now : String) :
    (storage_manager.is_conversation_member s conversation_id sender = false →
      ∃ c, (hub_api.send_message s conversation_id sender req newMsgId now).2
        = .error c)
    ∧ (req.body = "" → req.attachment_ids = [] →
        hub_api.send_message s conversation_id sender req newMsgId now
          = (s, .error 400))
    ∧ (storage_manager.is_conversation_member s conversation_id sender = true →
        ¬(req.body = "" ∧ req.attachment_ids = []) →
        (∀ m ∈ s.messages, m.message_id ≠ newMsgId) →
        ∃ msg, (hub_api.send_message s conversation_id sender req newMsgId now).2
            = .ok msg
          ∧ msg.attachments = req.attachment_ids.filterMap
              (storage_manager.resolveAttachment s.files sender)) := by
  refine ⟨?_, ?_, ?_⟩
  · intro hmem
    by_cases hb : (req.body == "" && req.attachment_ids.isEmpty) = true
    · exact ⟨400, by simp [hub_api.send_message, hb]⟩
    · refine ⟨500, ?_⟩
      have hb' : (req.body == "" && req.attachment_ids.isEmpty) = false :=
        Bool.eq_false_iff.mpr hb
      simp [hub_api.send_message, hb', storage_manager.create_message, hmem]
  · intro h1 h2
    simp [hub_api.send_message, h1, h2]
  · intro hmem hne hfresh
    have hb : (req.body == "" && req.attachment_ids.isEmpty) = false := by
      rcases eq_or_ne req.body "" with hb1 | hb1
      · have h2 : req.attachment_ids ≠ [] := fun hc => hne ⟨hb1, hc⟩
        simp [hb1, h2]
      · simp [beq_eq_false_iff_ne.mpr hb1]
    have hmsg : (s.messages.any (fun m => m.message_id == newMsgId)) = false := by
      apply Bool.eq_false_iff.mpr
      intro hcon
      rw [List.any_eq_true] at hcon
      rcases hcon with ⟨m, hm, hpm⟩
      exact hfresh m hm (by simpa using hpm)
    simp only [hub_api.send_message, hb, Bool.false_eq_true, if_neg, if_false,
      storage_manager.create_message, hmem, Bool.not_true, hmsg]
    refine ⟨_, rfl, ?_⟩
    rw [attachLoop_snd]
    simp

/-- C2 witness: in a one-conversation store, a non-member send fails, an
empty send fails with 400, and a member send with one good and one bogus
attachment id succeeds carrying exactly the resolved attachment. -/
theorem send_message_spec_witness :
    (storage_manager.is_conversation_member
        { users := [⟨"u1", "alice", "a@x", "H1", true, "t1", "t1"⟩],
          files := [⟨"f1", "u1", "pic.png", 3, false, "t1"⟩],
          conversations := [⟨"c1", "dm", none, "u1", "t1", "t1"⟩],
          conversation_members := [⟨"c1", "u1", "t1"⟩] } "c1" "u1" = true
      ∧ ¬(("hi" : String) = "" ∧ (["f1", "zz"] : List String) = [])
      ∧ (∀ m ∈ ({ users := [⟨"u1", "alice", "a@x", "H1", true, "t1", "t1"⟩],
                  files := [⟨"f1", "u1", "pic.png", 3, false, "t1"⟩],
                  conversations := [⟨"c1", "dm", none, "u1", "t1", "t1"⟩],
                  conversation_members := [⟨"c1", "u1", "t1"⟩] } :
              storage_manager.Store).messages,
          m.message_id ≠ "m1"))
    ∧ (∃ msg, (hub_api.send_message
        { users := [⟨"u1", "alice", "a@x", "H1", true, "t1", "t1"⟩],
          files := [⟨"f1", "u1", "pic.png", 3, false, "t1"⟩],
          conversations := [⟨"c1", "dm", none, "u1", "t1", "t1"⟩],
          conversation_members := [⟨"c1", "u1", "t1"⟩] } "c1" "u1" ⟨"hi", ["f1", "zz"]⟩
          "m1" "t2").2 = .ok msg
        ∧ msg.attachments = (["f1", "zz"] : List String).filterMap
            (storage_manager.resolveAttachment
              [⟨"f1", "u1", "pic.png", 3, false, "t1"⟩] "u1")) :=
  ⟨⟨by decide, by decide, by decide⟩,
   (send_message_spec
     { users := [⟨"u1", "alice", "a@x", "H1", true, "t1", "t1"⟩],
       files := [⟨"f1", "u1", "pic.png", 3, false, "t1"⟩],
       conversations := [⟨"c1", "dm", none, "u1", "t1", "t1"⟩],
       conversation_members := [⟨"c1", "u1", "t1"⟩] } "c1" "u1" ⟨"hi", ["f1", "zz"]⟩
       "m1" "t2").2.2 (by decide) (by decide) (by decide)⟩

/-! ## C1 — read_file access control -/

/-- C1: for a stored file (a metadata row found under the name, a valid
name, and its blob on disk), read_file succeeds with the contents exactly
when the requester is the owner, or the file is public, or the file is
attached to a message in some conversation the requester is a member of;
in every other case it returns the permission-denied error and not the
contents. -/
theorem read_file_access_control (s : storage_manager.Store)
    (requester file_name content : String) (f : storage_manager.File)
    (hfind : s.files.find? (fun g => g.file_name == file_name) = some f)
    (hvalid : storage_manager.validate_filename file_name = true)
    (hdisk : storage_manager.diskRead s.disk file_name = some content) :
    (storage_manager.read_file s requester file_name = .ok content
      ↔ (f.user_id = requester ∨ f.is_public = true
          ∨ storage_manager.can_access_attached_file s requester file_name = true))
    ∧ (¬(f.user_id = requester ∨ f.is_public = true
          ∨ storage_manager.can_access_attached_file s requester file_name = true) →
        storage_manager.read_file s requester file_name
          = .error "Permission denied: file is private") := by
  by_cases hperm : f.user_id = requester ∨ f.is_public = true
      ∨ storage_manager.can_access_attached_file s requester file_name = true
  · have hcond : (!(f.user_id == requester) && !f.is_public
        && !(storage_manager.can_access_attached_file s requester file_name)) = false := by
      rcases hperm with h | h | h
      · simp [h]
      · simp [h]
      · simp [h]
    have hread : storage_manager.read_file s requester file_name = .ok content := by
      unfold storage_manager.read_file
      simp [hvalid, hfind, hcond, hdisk]
    refine ⟨?_, fun hn => absurd hperm hn⟩
    rw [hread]
    exact iff_of_true rfl hperm
  · push_neg at hperm
    obtain ⟨h1, h2, h3⟩ := hperm
    have hcond : (!(f.user_id == requester) && !f.is_public
        && !(storage_manager.can_access_attached_file s requester file_name)) = true := by
      simp [beq_eq_false_iff_ne.mpr h1, Bool.eq_false_iff.mpr h2, Bool.eq_false_iff.mpr h3]
    have hread : storage_manager.read_file s requester file_name
        = .error "Permission denied: file is private" := by
      unfold storage_manager.read_file
      simp [hvalid, hfind, hcond]
    refine ⟨?_, fun _ => hread⟩
    rw [hread]
    refine iff_of_false (by simp) ?_
    intro hcon
    rcases hcon with h | h | h
    · exact h1 h
    · exact h2 h
    · exact h3 h

/-- C1 witness: a private file owned by alice, attached to a message in a
conversation bob belongs to; the iff grants bob the read through the
attachment clause. -/
theorem read_file_access_control_witness :
    (({ users := [⟨"u1", "alice", "a@x", "H1", true, "t1", "t1"⟩,
                  ⟨"u2", "bob", "b@x", "H2", false, "t1", "t1"⟩],
        files := [⟨"f1", "u1", "pic.png", 3, false, "t1"⟩],
        conversations := [⟨"c1", "dm", none, "u1", "t1", "t1"⟩],
        conversation_members := [⟨"c1", "u1", "t1"⟩, ⟨"c1", "u2", "t1"⟩],
        messages := [⟨"m1", "c1", "u1", "look", "t2"⟩],
        message_attachments := [⟨"m1", "f1"⟩],
        disk := [("pic.png", "PNG")] } : storage_manager.Store).files.find?
          (fun g => g.file_name == "pic.png") = some ⟨"f1", "u1", "pic.png", 3, false, "t1"⟩
      ∧ storage_manager.validate_filename "pic.png" = true
      ∧ storage_manager.diskRead [("pic.png", "PNG")] "pic.png" = some "PNG")
    ∧ (storage_manager.read_file
        { users := [⟨"u1", "alice", "a@x", "H1", true, "t1", "t1"⟩,
                    ⟨"u2", "bob", "b@x", "H2", false, "t1", "t1"⟩],
          files := [⟨"f1", "u1", "pic.png", 3, false, "t1"⟩],
          conversations := [⟨"c1", "dm", none, "u1", "t1", "t1"⟩],
          conversation_members := [⟨"c1", "u1", "t1"⟩, ⟨"c1", "u2", "t1"⟩],
          messages := [⟨"m1", "c1", "u1", "look", "t2"⟩],
          message_attachments := [⟨"m1", "f1"⟩],
          disk := [("pic.png", "PNG")] } "u2" "pic.png" = .ok "PNG"
      ↔ (("u1" : String) = "u2" ∨ false = true
          ∨ storage_manager.can_access_attached_file
              { users := [⟨"u1", "alice", "a@x", "H1", true, "t1", "t1"⟩,
                          ⟨"u2", "bob", "b@x", "H2", false, "t1", "t1"⟩],
                files := [⟨"f1", "u1", "pic.png", 3, false, "t1"⟩],
                conversations := [⟨"c1", "dm", none, "u1", "t1", "t1"⟩],
                conversation_members := [⟨"c1", "u1", "t1"⟩, ⟨"c1", "u2", "t1"⟩],
                messages := [⟨"m1", "c1", "u1", "look", "t2"⟩],
                message_attachments := [⟨"m1", "f1"⟩],
                disk := [("pic.png", "PNG")] } "u2" "pic.png" = true)) :=
  ⟨⟨by decide, by decide, by decide⟩,
   (read_file_access_control
     { users := [⟨"u1", "alice", "a@x", "H1", true, "t1", "t1"⟩,
                 ⟨"u2", "bob", "b@x", "H2", false, "t1", "t1"⟩],
       files := [⟨"f1", "u1", "pic.png", 3, false, "t1"⟩],
       conversations := [⟨"c1", "dm", none, "u1", "t1", "t1"⟩],
       conversation_members := [⟨"c1", "u1", "t1"⟩, ⟨"c1", "u2", "t1"⟩],
       messages := [⟨"m1", "c1", "u1", "look", "t2"⟩],
       message_attachments := [⟨"m1", "f1"⟩],
       disk := [("pic.png", "PNG")] } "u2" "pic.png" "PNG"
     ⟨"f1", "u1", "pic.png", 3, false, "t1"⟩
     (by decide) (by decide) (by decide)).1⟩

/-! ## C4 — DM idempotence -/

/-- find? is determined by the pointwise behaviour of its predicate. -/
theorem find?_congr_pred {α : Type} {p q : α → Bool} (h : ∀ x, p x = q x) :
    ∀ l : List α, l.find? p = l.find? q := by
  intro l
  induction l with
  | nil => rfl
  | cons x xs ih =>
    rw [List.find?_cons, List.find?_cons, h x]
    cases hq : q x <;> simp [hq, ih]

/-- The existing-DM lookup is symmetric in the two member arguments. -/
theorem dm_lookup_symm (t : storage_manager.Store) (x y : String) :
    t.conversations.find? (fun c => c.kind == "dm" &&
      t.conversation_members.any (fun cm =>
        cm.conversation_id == c.conversation_id && cm.user_id == x) &&
      t.conversation_members.any (fun cm =>
        cm.conversation_id == c.conversation_id && cm.user_id == y))
    = t.conversations.find? (fun c => c.kind == "dm" &&
      t.conversation_members.any (fun cm =>
        cm.conversation_id == c.conversation_id && cm.user_id == y) &&
      t.conversation_members.any (fun cm =>
        cm.conversation_id == c.conversation_id && cm.user_id == x)) := by
  apply find?_congr_pred
  intro c
  exact Bool.and_right_comm _ _ _

set_option maxHeartbeats 1000000 in
/-- C4 (amended): for distinct users a and b and a fresh conversation id,
the first create_dm_conversation call succeeds, and a second call — with
arguments in either order — returns the very same conversation and leaves
the store unchanged, so no new conversation or membership rows appear. -/
theorem create_dm_conversation_idempotent (s : storage_manager.Store)
    (a b newId now : String) (hab : a ≠ b)
    (hfreshC : ∀ c ∈ s.conversations, c.conversation_id ≠ newId)
    (hfreshM : ∀ cm ∈ s.conversation_members, cm.conversation_id ≠ newId) :
    ∃ s₁ conv,
      storage_manager.create_dm_conversation s a b newId now = (s₁, .ok conv)
      ∧ (∀ newId₂ now₂,
          storage_manager.create_dm_conversation s₁ a b newId₂ now₂ = (s₁, .ok conv)
          ∧ storage_manager.create_dm_conversation s₁ b a newId₂ now₂
              = (s₁, .ok conv)) := by
  rcases hex : s.conversations.find? (fun c => c.kind == "dm" &&
      s.conversation_members.any (fun cm =>
        cm.conversation_id == c.conversation_id && cm.user_id == a) &&
      s.conversation_members.any (fun cm =>
        cm.conversation_id == c.conversation_id && cm.user_id == b)) with _ | c
  · -- no existing DM: the call inserts the conversation and both members
    have hNoC : (s.conversations.any (fun c => c.conversation_id == newId)) = false := by
      rw [List.any_eq_false]
      intro c hc
      simp [hfreshC c hc]
    have hNoA : (s.conversation_members.any (fun cm =>
        cm.conversation_id == newId && cm.user_id == a)) = false := by
      rw [List.any_eq_false]
      intro cm hcm
      simp [hfreshM cm hcm]
    have hNoB : ((s.conversation_members
        ++ ([⟨newId, a, now⟩] : List storage_manager.ConversationMemberRow)).any (fun cm =>
        cm.conversation_id == newId && cm.user_id == b)) = false := by
      rw [List.any_append]
      have h1 : (s.conversation_members.any (fun cm =>
          cm.conversation_id == newId && cm.user_id == b)) = false := by
        rw [List.any_eq_false]
        intro cm hcm
        simp [hfreshM cm hcm]
      have h2 : (([⟨newId, a, now⟩] : List storage_manager.ConversationMemberRow).any
          (fun cm => cm.conversation_id == newId && cm.user_id == b)) = false := by
        simp [beq_eq_false_iff_ne.mpr hab]
      rw [h1, h2]
      rfl
    refine ⟨{ s with
        conversations := s.conversations
          ++ ([⟨newId, "dm", none, a, now, now⟩] : List storage_manager.Conversation),
        conversation_members := s.conversation_members
          ++ ([⟨newId, a, now⟩] : List storage_manager.ConversationMemberRow)
          ++ ([⟨newId, b, now⟩] : List storage_manager.ConversationMemberRow) },
      ⟨newId, "dm", none, a, now, now⟩, ?_, ?_⟩
    · unfold storage_manager.create_dm_conversation
      simp [hex, hNoC, hNoA, hNoB]
    · intro newId₂ now₂
      have hmemEq : ∀ (x : String) (c : storage_manager.Conversation),
          c ∈ s.conversations →
          ((s.conversation_members
            ++ ([⟨newId, a, now⟩] : List storage_manager.ConversationMemberRow)
            ++ ([⟨newId, b, now⟩] : List storage_manager.ConversationMemberRow)).any
            (fun cm => cm.conversation_id == c.conversation_id && cm.user_id == x))
          = (s.conversation_members.any
            (fun cm => cm.conversation_id == c.conversation_id && cm.user_id == x)) := by
        intro x c hc
        have hcid : (newId == c.conversation_id) = false :=
          beq_eq_false_iff_ne.mpr (fun h => hfreshC c hc h.symm)
        rw [List.any_append, List.any_append]
        simp [hcid]
      have hfind2 : ((s.conversations
          ++ ([⟨newId, "dm", none, a, now, now⟩] : List storage_manager.Conversation)).find?
          (fun c => c.kind == "dm" &&
            ((s.conversation_members
              ++ ([⟨newId, a, now⟩] : List storage_manager.ConversationMemberRow)
              ++ ([⟨newId, b, now⟩] : List storage_manager.ConversationMemberRow)).any
              (fun cm => cm.conversation_id == c.conversation_id && cm.user_id == a)) &&
            ((s.conversation_members
              ++ ([⟨newId, a, now⟩] : List storage_manager.ConversationMemberRow)
              ++ ([⟨newId, b, now⟩] : List storage_manager.ConversationMemberRow)).any
              (fun cm => cm.conversation_id == c.conversation_id && cm.user_id == b))))
          = some ⟨newId, "dm", none, a, now, now⟩ := by
        rw [List.find?_append]
        have hold : (s.conversations.find?
            (fun c => c.kind == "dm" &&
              ((s.conversation_members
                ++ ([⟨newId, a, now⟩] : List storage_manager.ConversationMemberRow)
                ++ ([⟨newId, b, now⟩] : List storage_manager.ConversationMemberRow)).any
                (fun cm => cm.conversation_id == c.conversation_id && cm.user_id == a)) &&
              ((s.conversation_members
                ++ ([⟨newId, a, now⟩] : List storage_manager.ConversationMemberRow)
                ++ ([⟨newId, b, now⟩] : List storage_manager.ConversationMemberRow)).any
                (fun cm => cm.conversation_id == c.conversation_id && cm.user_id == b))))
            = none := by
          rw [List.find?_eq_none]
          intro c hc
          have hpold := List.find?_eq_none.mp hex c hc
          rw [hmemEq a c hc, hmemEq b c hc]
          exact hpold
        have hnew : (([⟨newId, "dm", none, a, now, now⟩] :
            List storage_manager.Conversation).find?
            (fun c => c.kind == "dm" &&
              ((s.conversation_members
                ++ ([⟨newId, a, now⟩] : List storage_manager.ConversationMemberRow)
                ++ ([⟨newId, b, now⟩] : List storage_manager.ConversationMemberRow)).any
                (fun cm => cm.conversation_id == c.conversation_id && cm.user_id == a)) &&
              ((s.conversation_members
                ++ ([⟨newId, a, now⟩] : List storage_manager.ConversationMemberRow)
                ++ ([⟨newId, b, now⟩] : List storage_manager.ConversationMemberRow)).any
                (fun cm => cm.conversation_id == c.conversation_id && cm.user_id == b))))
            = some ⟨newId, "dm", none, a, now, now⟩ := by
          simp [List.find?_cons, List.any_append]
        rw [hold, hnew]
        rfl
      constructor
      · unfold storage_manager.create_dm_conversation
        simp only [hfind2]
      · unfold storage_manager.create_dm_conversation
        rw [dm_lookup_symm]
        simp only [hfind2]
  · -- an existing DM is returned unchanged by every call
    refine ⟨s, c, ?_, ?_⟩
    · unfold storage_manager.create_dm_conversation
      simp only [hex]
    · intro newId₂ now₂
      constructor
      · unfold storage_manager.create_dm_conversation
        simp only [hex]
      · unfold storage_manager.create_dm_conversation
        rw [dm_lookup_symm]
        simp only [hex]

/-- C4 witness: on a store whose only conversation is unrelated, creating
the alice–bob DM once and then re-running the call in both argument orders
returns the same conversation with the store unchanged. -/
theorem create_dm_conversation_idempotent_witness :
    (("alice" : String) ≠ "bob"
      ∧ (∀ c ∈ ({ conversations := [⟨"c0", "group", some "g", "u3", "t0", "t0"⟩],
                  conversation_members := [⟨"c0", "u3", "t0"⟩] } :
              storage_manager.Store).conversations, c.conversation_id ≠ "c9")
      ∧ (∀ cm ∈ ({ conversations := [⟨"c0", "group", some "g", "u3", "t0", "t0"⟩],
                   conversation_members := [⟨"c0", "u3", "t0"⟩] } :
              storage_manager.Store).conversation_members, cm.conversation_id ≠ "c9"))
    ∧ (∃ s₁ conv,
        storage_manager.create_dm_conversation
          { conversations := [⟨"c0", "group", some "g", "u3", "t0", "t0"⟩],
            conversation_members := [⟨"c0", "u3", "t0"⟩] } "alice" "bob" "c9" "t1"
          = (s₁, .ok conv)
        ∧ (∀ newId₂ now₂,
            storage_manager.create_dm_conversation s₁ "alice" "bob" newId₂ now₂
              = (s₁, .ok conv)
            ∧ storage_manager.create_dm_conversation s₁ "bob" "alice" newId₂ now₂
              = (s₁, .ok conv))) :=
  ⟨⟨by decide, by decide, by decide⟩,
   create_dm_conversation_idempotent
     { conversations := [⟨"c0", "group", some "g", "u3", "t0", "t0"⟩],
       conversation_members := [⟨"c0", "u3", "t0"⟩] } "alice" "bob" "c9" "t1"
     (by decide) (by decide) (by decide)⟩

/-- C4 counterexample: for the pair a = b = alice on a store with no DMs,
the first create_dm_conversation call fails outright (the second membership
INSERT collides with the (conversation_id, user_id) primary key), so it is
not true that for every pair of users both calls return the same
conversation id — no id is returned at all. -/
theorem create_dm_conversation_self_pair_fails :
    ((storage_manager.create_dm_conversation ({} : storage_manager.Store)
        "alice" "alice" "c1" "t1").2
      = .error "Failed to add conversation member")
    ∧ ¬ ∃ conv, (storage_manager.create_dm_conversation ({} : storage_manager.Store)
        "alice" "alice" "c1" "t1").2 = .ok conv := by
  constructor
  · decide
  · rintro ⟨conv, hconv⟩
    have hval : (storage_manager.create_dm_conversation ({} : storage_manager.Store)
        "alice" "alice" "c1" "t1").2
        = .error "Failed to add conversation member" := by decide
    rw [hval] at hconv
    cases hconv

/-! ## C3 — pagination -/

/-- strLt is irreflexive. -/
theorem strLt_irrefl (a : String) : strLt a a = false := by
  rcases h : strLt a a with _ | _
  · rfl
  · have := strLt_asymm h
    rw [this] at h
    cases h

/-- A list with a known getLast? decomposes as dropLast ++ [last]. -/
theorem getLast?_decomp {α : Type} : ∀ {l : List α} {m : α},
    l.getLast? = some m → l = l.dropLast ++ [m] := by
  intro l
  induction l with
  | nil => intro m h; cases h
  | cons a rest ih =>
    intro m h
    cases rest with
    | nil =>
      simp only [List.getLast?_singleton, Option.some.injEq] at h
      subst h
      rfl
    | cons b rest₂ =>
      have h2 : (b :: rest₂).getLast? = some m := by
        rw [List.getLast?_cons_cons] at h
        exact h
      have := ih h2
      calc a :: b :: rest₂ = a :: ((b :: rest₂).dropLast ++ [m]) := by rw [← this]
        _ = (a :: b :: rest₂).dropLast ++ [m] := rfl

/-- Pairwise strict descent gives the boolean adjacent-pairs check. -/
theorem strictlyDescendingBy_of_pairwise {α : Type} (key : α → String) :
    ∀ {l : List α}, l.Pairwise (strictDescBy key) →
      strictlyDescendingBy key l = true := by
  intro l
  induction l with
  | nil => intro _; rfl
  | cons a rest ih =>
    intro hp
    rcases List.pairwise_cons.mp hp with ⟨ha, htail⟩
    cases rest with
    | nil => rfl
    | cons b rest₂ =>
      have hab : strLt (key b) (key a) = true := ha b (List.mem_cons_self _ _)
      show (strLt (key b) (key a) && strictlyDescendingBy key (b :: rest₂)) = true
      rw [hab, ih htail]
      rfl

/-- Sorted (weakly, by descBy) plus pairwise-distinct keys gives pairwise
strict descent. -/
theorem pairwise_strict_of_sorted_distinct {α : Type} (key : α → String) {l : List α}
    (hs : List.Pairwise (descBy key) l)
    (hd : List.Pairwise (fun x y => key x ≠ key y) l) :
    List.Pairwise (strictDescBy key) l := by
  refine (hs.and hd).imp ?_
  rintro a b ⟨h1, h2⟩
  have h1' : strLt (key a) (key b) = false := by
    have h1b : strLe (key b) (key a) = true := h1
    simpa [strLe, Bool.not_eq_true'] using h1b
  rcases hlt : strLt (key b) (key a) with _ | _
  · exact absurd (strLt_eq_of_not h1' hlt) h2
  · exact hlt

/-- In a strictly descending list, filtering strictly below the last
element of the first k entries yields exactly the entries after them —
the keyset-pagination step. -/
theorem filter_lt_last_take {α : Type} (key : α → String) {l : List α}
    (hp : l.Pairwise (strictDescBy key)) (k : Nat) (m : α)
    (hlast : (l.take k).getLast? = some m) :
    l.filter (fun x => strLt (key x) (key m)) = l.drop k := by
  have hp2 : List.Pairwise (strictDescBy key) (l.take k ++ l.drop k) := by
    rw [List.take_append_drop]
    exact hp
  obtain ⟨hpt, _, hcross⟩ := List.pairwise_append.mp hp2
  have hdecomp := getLast?_decomp hlast
  have hmem_take : m ∈ l.take k := by
    rw [hdecomp]
    exact List.mem_append.mpr (Or.inr (by simp))
  have htake_none : ∀ x ∈ l.take k, (strLt (key x) (key m)) = false := by
    intro x hx
    rw [hdecomp] at hx hpt
    rcases List.mem_append.mp hx with hxd | hxm
    · obtain ⟨_, _, hcr⟩ := List.pairwise_append.mp hpt
      exact strLt_asymm (hcr x hxd m (by simp))
    · have hxe : x = m := by simpa using hxm
      subst hxe
      exact strLt_irrefl _
  have hdrop_all : ∀ y ∈ l.drop k, (strLt (key y) (key m)) = true :=
    fun y hy => hcross m hmem_take y hy
  calc l.filter (fun x => strLt (key x) (key m))
      = (l.take k ++ l.drop k).filter (fun x => strLt (key x) (key m)) := by
        rw [List.take_append_drop]
    _ = (l.take k).filter (fun x => strLt (key x) (key m))
        ++ (l.drop k).filter (fun x => strLt (key x) (key m)) := List.filter_append _ _
    _ = [] ++ l.drop k := by
        rw [List.filter_eq_nil.mpr (fun a ha => by simp [htake_none a ha]),
          List.filter_eq_self.mpr hdrop_all]
    _ = l.drop k := by simp

set_option maxHeartbeats 1600000 in
/-- C3 (amended): for a conversation holding 120 messages with pairwise
distinct timestamps (senders present in the users table), calling
list_messages with limit 50, then repeatedly with before set to the oldest
returned timestamp, yields pages of 50, 50 and 20 with a fourth empty call;
the three pages concatenated are exactly the conversation's 120 messages —
no duplicates, no gaps — in strictly descending timestamp order. A limit
query value above 100 is clamped to 100 by the handler. -/
theorem list_messages_pagination (s : storage_manager.Store) (cid : String)
    (hsend : ∀ m ∈ s.messages, (s.users.any (fun u => u.user_id == m.sender_id)) = true)
    (hlen : (s.messages.filter (fun m => m.conversation_id == cid)).length = 120)
    (hdist : (s.messages.filter (fun m => m.conversation_id == cid)).Pairwise
      (fun m1 m2 => m1.created_at ≠ m2.created_at)) :
    (∃ t1 t2 t3 : String,
      ((storage_manager.list_messages s cid 50 none).getLast?).map
          storage_manager.Message.created_at = some t1
      ∧ ((storage_manager.list_messages s cid 50 (some t1)).getLast?).map
          storage_manager.Message.created_at = some t2
      ∧ ((storage_manager.list_messages s cid 50 (some t2)).getLast?).map
          storage_manager.Message.created_at = some t3
      ∧ (storage_manager.list_messages s cid 50 none).length = 50
      ∧ (storage_manager.list_messages s cid 50 (some t1)).length = 50
      ∧ (storage_manager.list_messages s cid 50 (some t2)).length = 20
      ∧ storage_manager.list_messages s cid 50 (some t3) = []
      ∧ (storage_manager.list_messages s cid 50 none
          ++ storage_manager.list_messages s cid 50 (some t1)
          ++ storage_manager.list_messages s cid 50 (some t2)).length = 120
      ∧ ((storage_manager.list_messages s cid 50 none
          ++ storage_manager.list_messages s cid 50 (some t1)
          ++ storage_manager.list_messages s cid 50 (some t2)).map
            storage_manager.Message.message_id).Perm
          ((s.messages.filter (fun m => m.conversation_id == cid)).map
            storage_manager.MessageRow.message_id)
      ∧ strictlyDescendingBy storage_manager.Message.created_at
          (storage_manager.list_messages s cid 50 none
            ++ storage_manager.list_messages s cid 50 (some t1)
            ++ storage_manager.list_messages s cid 50 (some t2)) = true)
    ∧ (∀ n : Nat, 100 < n → hub_api.effectiveLimit (some n) = 100) := by
  set pool := s.messages.filter (fun m => m.conversation_id == cid) with hpooldef
  set L := List.insertionSort (descBy storage_manager.MessageRow.created_at) pool
    with hLdef
  haveI hTot : IsTotal storage_manager.MessageRow
      (descBy storage_manager.MessageRow.created_at) :=
    ⟨fun a b => strLe_total _ _⟩
  haveI hTr : IsTrans storage_manager.MessageRow
      (descBy storage_manager.MessageRow.created_at) :=
    ⟨fun _ _ _ hab hbc => strLe_trans hbc hab⟩
  haveI hAnti : IsAntisymm storage_manager.MessageRow
      (strictDescBy storage_manager.MessageRow.created_at) :=
    ⟨fun a b h1 h2 => absurd h2 (by simp [strictDescBy, strLt_asymm h1])⟩
  have hL_perm : L.Perm pool := List.perm_insertionSort _ _
  have hsorted : List.Pairwise (descBy storage_manager.MessageRow.created_at) L :=
    List.sorted_insertionSort _ _
  have hdistL : L.Pairwise (fun m1 m2 => m1.created_at ≠ m2.created_at) :=
    (List.Perm.pairwise_iff (fun h => Ne.symm h) hL_perm).mpr hdist
  have hLstrict : L.Pairwise (strictDescBy storage_manager.MessageRow.created_at) :=
    pairwise_strict_of_sorted_distinct _ hsorted hdistL
  have hLlen : L.length = 120 := by rw [hL_perm.length_eq]; exact hlen
  have hfilter_none :
      s.messages.filter (storage_manager.messageVisible s cid none) = pool := by
    rw [hpooldef]
    apply List.filter_congr
    intro m hm
    unfold storage_manager.messageVisible
    simp [hsend m hm]
  have hfilter_some : ∀ t : String,
      s.messages.filter (storage_manager.messageVisible s cid (some t))
        = pool.filter (fun m => strLt m.created_at t) := by
    intro t
    rw [hpooldef, List.filter_filter]
    apply List.filter_congr
    intro m hm
    unfold storage_manager.messageVisible
    simp [hsend m hm]
    exact Bool.and_comm _ _
  have hsort_filter : ∀ q : storage_manager.MessageRow → Bool,
      List.insertionSort (descBy storage_manager.MessageRow.created_at) (pool.filter q)
        = L.filter q := by
    intro q
    apply List.eq_of_perm_of_sorted
      (r := strictDescBy storage_manager.MessageRow.created_at)
    · exact (List.perm_insertionSort _ _).trans (List.Perm.filter q hL_perm).symm
    · apply pairwise_strict_of_sorted_distinct _ (List.sorted_insertionSort _ _)
      exact (List.Perm.pairwise_iff (fun h => Ne.symm h)
        (List.perm_insertionSort _ _)).mpr (hdist.filter q)
    · exact List.Pairwise.filter q hLstrict
  have hlm_none : storage_manager.list_messages s cid 50 none
      = (L.take 50).map (storage_manager.hydrateMessage s) := by
    unfold storage_manager.list_messages
    rw [hfilter_none]
  have hlm_some : ∀ t : String, storage_manager.list_messages s cid 50 (some t)
      = ((L.filter (fun m => strLt m.created_at t)).take 50).map
          (storage_manager.hydrateMessage s) := by
    intro t
    unfold storage_manager.list_messages
    rw [hfilter_some t, hsort_filter]
  have h50len : (L.take 50).length = 50 := by
    rw [List.length_take, hLlen]
    decide
  have h50ne : L.take 50 ≠ [] := by
    intro hnil
    rw [hnil] at h50len
    cases h50len
  obtain ⟨m1, hm1⟩ : ∃ m, (L.take 50).getLast? = some m :=
    ⟨(L.take 50).getLast h50ne, List.getLast?_eq_getLast _ h50ne⟩
  have hfilter1 : L.filter (fun x => strLt x.created_at m1.created_at) = L.drop 50 :=
    filter_lt_last_take storage_manager.MessageRow.created_at hLstrict 50 m1 hm1
  have hlm1 : storage_manager.list_messages s cid 50 (some m1.created_at)
      = ((L.drop 50).take 50).map (storage_manager.hydrateMessage s) := by
    rw [hlm_some, hfilter1]
  have hdroplen : (L.drop 50).length = 70 := by rw [List.length_drop, hLlen]
  have hseg2len : ((L.drop 50).take 50).length = 50 := by
    rw [List.length_take, hdroplen]
    decide
  have hseg2ne : (L.drop 50).take 50 ≠ [] := by
    intro hnil
    rw [hnil] at hseg2len
    cases hseg2len
  obtain ⟨m2, hm2⟩ : ∃ m, ((L.drop 50).take 50).getLast? = some m :=
    ⟨_, List.getLast?_eq_getLast _ hseg2ne⟩
  have hm2' : (L.take 100).getLast? = some m2 := by
    have h100 : L.take 100 = L.take 50 ++ (L.drop 50).take 50 := by
      rw [show (100 : Nat) = 50 + 50 from rfl, List.take_add]
    rw [h100, List.getLast?_append, hm2]
    rfl
  have hfilter2 : L.filter (fun x => strLt x.created_at m2.created_at) = L.drop 100 :=
    filter_lt_last_take storage_manager.MessageRow.created_at hLstrict 100 m2 hm2'
  have hlm2 : storage_manager.list_messages s cid 50 (some m2.created_at)
      = ((L.drop 100).take 50).map (storage_manager.hydrateMessage s) := by
    rw [hlm_some, hfilter2]
  have hdrop100len : (L.drop 100).length = 20 := by rw [List.length_drop, hLlen]
  have htake3 : (L.drop 100).take 50 = L.drop 100 :=
    List.take_all_of_le (by rw [hdrop100len]; decide)
  have hdrop100ne : L.drop 100 ≠ [] := by
    intro hnil
    rw [hnil] at hdrop100len
    cases hdrop100len
  obtain ⟨m3, hm3⟩ : ∃ m, (L.drop 100).getLast? = some m :=
    ⟨_, List.getLast?_eq_getLast _ hdrop100ne⟩
  have hm3' : (L.take 120).getLast? = some m3 := by
    have htakeL : L.take 120 = L := by
      rw [← hLlen]
      exact List.take_length L
    rw [htakeL]
    conv_lhs => rw [← List.take_append_drop 100 L]
    rw [List.getLast?_append, hm3]
    rfl
  have hfilter3 : L.filter (fun x => strLt x.created_at m3.created_at) = L.drop 120 :=
    filter_lt_last_take storage_manager.MessageRow.created_at hLstrict 120 m3 hm3'
  have hdrop120 : L.drop 120 = [] := by
    rw [← hLlen]
    exact List.drop_length L
  have hlm3 : storage_manager.list_messages s cid 50 (some m3.created_at) = [] := by
    rw [hlm_some, hfilter3, hdrop120]
    rfl
  have hconcat : storage_manager.list_messages s cid 50 none
      ++ storage_manager.list_messages s cid 50 (some m1.created_at)
      ++ storage_manager.list_messages s cid 50 (some m2.created_at)
      = L.map (storage_manager.hydrateMessage s) := by
    rw [hlm_none, hlm1, hlm2, htake3]
    rw [← List.map_append, ← List.map_append]
    congr 1
    rw [← List.take_add]
    show L.take 100 ++ L.drop 100 = L
    exact List.take_append_drop 100 L
  refine ⟨⟨m1.created_at, m2.created_at, m3.created_at, ?_, ?_, ?_, ?_, ?_, ?_, ?_,
    ?_, ?_, ?_⟩, ?_⟩
  · rw [hlm_none, List.getLast?_map, hm1]
    rfl
  · rw [hlm1, List.getLast?_map, hm2]
    rfl
  · rw [hlm2, htake3, List.getLast?_map, hm3]
    rfl
  · rw [hlm_none, List.length_map]
    exact h50len
  · rw [hlm1, List.length_map]
    exact hseg2len
  · rw [hlm2, htake3, List.length_map]
    exact hdrop100len
  · exact hlm3
  · rw [hconcat, List.length_map]
    exact hLlen
  · rw [hconcat, List.map_map]
    have hcomp : (storage_manager.Message.message_id ∘ storage_manager.hydrateMessage s)
        = storage_manager.MessageRow.message_id := funext (fun m => rfl)
    rw [hcomp]
    exact hL_perm.map _
  · rw [hconcat]
    exact strictlyDescendingBy_of_pairwise _ (List.pairwise_map.mpr hLstrict)
  · intro n hn
    simp [hub_api.effectiveLimit, Nat.min_eq_right (Nat.le_of_lt hn)]

set_option maxHeartbeats 4000000 in
/-- C3 witness: the 120-message store with distinct timestamps satisfies
the hypotheses, and the instantiated theorem also yields the clamp fact at
limit 150. -/
theorem list_messages_pagination_witness :
    ((∀ m ∈ storage_manager.paginationWitnessStore.messages,
        (storage_manager.paginationWitnessStore.users.any
          (fun u => u.user_id == m.sender_id)) = true)
      ∧ (storage_manager.paginationWitnessStore.messages.filter
          (fun m => m.conversation_id == "c1")).length = 120
      ∧ (storage_manager.paginationWitnessStore.messages.filter
          (fun m => m.conversation_id == "c1")).Pairwise
          (fun m1 m2 => m1.created_at ≠ m2.created_at))
    ∧ hub_api.effectiveLimit (some 150) = 100 :=
  ⟨⟨by decide, by decide, by decide⟩,
   (list_messages_pagination storage_manager.paginationWitnessStore "c1"
     (by decide) (by decide) (by decide)).2 150 (by decide)⟩

set_option maxHeartbeats 4000000 in
/-- C3 counterexample: a conversation holding 120 messages two of which
share the timestamp 218. Pagination by repeated list_messages calls with
before set to the oldest returned timestamp terminates after pages of
50/50/20, but the yielded sequence is not in strictly descending timestamp
order (the two 218s are adjacent in the first page), so the claim as
stated — quantifying over every conversation holding 120 messages, with no
distinctness assumption on timestamps — is false at this input. -/
theorem list_messages_pagination_cex :
    ((storage_manager.paginationCexStore.messages.filter
        (fun m => m.conversation_id == "c1")).length = 120)
    ∧ ((storage_manager.list_messages storage_manager.paginationCexStore
        "c1" 50 none).getLast?).map storage_manager.Message.created_at = some "170"
    ∧ ((storage_manager.list_messages storage_manager.paginationCexStore
        "c1" 50 (some "170")).getLast?).map storage_manager.Message.created_at
        = some "120"
    ∧ ((storage_manager.list_messages storage_manager.paginationCexStore
        "c1" 50 (some "120")).getLast?).map storage_manager.Message.created_at
        = some "100"
    ∧ storage_manager.list_messages storage_manager.paginationCexStore
        "c1" 50 (some "100") = []
    ∧ strictlyDescendingBy storage_manager.Message.created_at
        (storage_manager.list_messages storage_manager.paginationCexStore "c1" 50 none
          ++ storage_manager.list_messages storage_manager.paginationCexStore
              "c1" 50 (some "170")
          ++ storage_manager.list_messages storage_manager.paginationCexStore
              "c1" 50 (some "120")) = false :=
  ⟨by decide, by decide, by decide, by decide, by decide, by decide⟩

end Citinet
